import Mathlib

/-!
Verification development for the `genere` text-generation engine
(`src/lib/generator.rs`).  The Rust code is shallowly embedded: strings are
`List Char`, the two `HashMap`s of `Generator` are association lists with
first-match lookup and cons-insert (later insertions shadow earlier ones,
matching `HashMap::insert` overwrite semantics), the `HashSet` recursion
guard is a list, and the random source (`rand`'s `Rng`) is modelled as a
deterministic state machine: `choose` on a non-empty slice consumes one draw.
Rust regex matching for the six fixed patterns of the source is embedded as
dedicated left-to-right scanners with leftmost-first, greedy semantics.
`\w` is modelled on the ASCII range (alphanumeric or underscore) extended
with the Latin-1/Latin-Extended-A letter block; the characters relevant to
every claim are ASCII.  Unicode case mapping is modelled by the ASCII
`Char.toLower`/`Char.toUpper`.  Panics (`unwrap`, `unreachable!` in the
source) are modelled by the distinguished outcome `Fail.panicked`, typed
errors (`bail!`) by `Fail.err`, and the recursion of the engine is made
total with an explicit fuel argument whose exhaustion is the distinguished
outcome `Fail.fuel` (the source can genuinely diverge through `{{ }}`
chains, see §9 of the spec).
-/

/-- Decidable equality on `Except`, used to evaluate the embedding on
concrete inputs. -/
instance {ε α : Type} [DecidableEq ε] [DecidableEq α] : DecidableEq (Except ε α) := fun a b =>
  match a, b with
  | .ok x, .ok y =>
    if h : x = y then .isTrue (by rw [h]) else .isFalse (by intro hc; cases hc; exact h rfl)
  | .error x, .error y =>
    if h : x = y then .isTrue (by rw [h]) else .isFalse (by intro hc; cases hc; exact h rfl)
  | .ok _, .error _ => .isFalse (by intro hc; cases hc)
  | .error _, .ok _ => .isFalse (by intro hc; cases hc)

/-- Strings of the embedding: lists of characters. -/
abbrev Str := List Char

/-- Coerce a Lean string literal to the embedding's string type. -/
def str (s : String) : Str := s.data

/-- `Gender` from the source (`enum Gender { Male, Female, Neutral }`). -/
inductive Gender where
  | male
  | female
  | neutral
deriving DecidableEq, Repr

/-- `struct Replaced { content: String, gender: Gender }`: a resolved entry
of the resolution environment. -/
structure Replaced where
  content : Str
  gender : Gender
deriving DecidableEq, Repr

/-- `struct Replacement { gender_dependency: Option<String>, content: Vec<String> }`:
a replacement rule of the symbol table. -/
structure Replacement where
  gender_dependency : Option Str
  content : List Str
deriving DecidableEq, Repr

/-- The resolution environment: `HashMap<String, Replaced>` modelled as an
association list (first match wins on lookup). -/
abbrev EnvT := List (Str × Replaced)

/-- The symbol table: `HashMap<String, Replacement>` modelled as an
association list (first match wins on lookup). -/
abbrev RepT := List (Str × Replacement)

/-- `struct Generator { replaced: HashMap<String, Replaced>, replacements: HashMap<String, Replacement> }`. -/
structure Generator where
  replaced : EnvT
  replacements : RepT
deriving DecidableEq, Repr

/-- Lookup in an association-list map, first match wins. -/
def lookupA (m : EnvT) (k : Str) : Option Replaced :=
  match m with
  | [] => none
  | (k2, v) :: rest => if k2 = k then some v else lookupA rest k

/-- Lookup in the rule table, first match wins. -/
def lookupR (m : RepT) (k : Str) : Option Replacement :=
  match m with
  | [] => none
  | (k2, v) :: rest => if k2 = k then some v else lookupR rest k

/-- `HashMap::insert` (overwrite): modelled by cons, which shadows any
earlier binding under first-match lookup. -/
def insertA (m : EnvT) (k : Str) (v : Replaced) : EnvT := (k, v) :: m

/-- `HashMap::insert` on the rule table. -/
def insertR (m : RepT) (k : Str) (v : Replacement) : RepT := (k, v) :: m

/-- The deterministic model of the random source.  The source uses either
`thread_rng()` (ambient entropy, modelled by passing an arbitrary `Rng`
value at the API boundary) or `SmallRng::seed_from_u64(seed)` (a pure
function of the seed).  Only the facts that draws are deterministic in the
state and that `choose` consumes one draw matter to the claims. -/
structure Rng where
  state : Nat
deriving DecidableEq, Repr

/-- One step of the modelled PRNG (a linear congruential generator standing
in for the concrete `SmallRng` stream). -/
def lcg (s : Nat) : Nat := (s * 1103515245 + 12345) % (2 ^ 31)

/-- `slice.choose(rng)`: `None` on an empty slice (no draw consumed),
otherwise a uniform index obtained from one draw. -/
def chooseL (xs : List Str) (r : Rng) : Option Str × Rng :=
  match xs with
  | [] => (none, r)
  | _ :: _ => (some ((xs.get? (r.state % xs.length)).getD []), ⟨lcg r.state⟩)

/-- `SmallRng::seed_from_u64`: an arbitrary deterministic function of the
seed. -/
def seedRng (seed : Nat) : Rng := ⟨seed % (2 ^ 31)⟩

/-- Rust regex `\w` (word character), modelled on ASCII alphanumerics,
underscore, and the Latin-1 Supplement / Latin Extended-A letter range used
by the French examples of the source.  The mid-dot `·` (U+00B7) is not a
word character, matching Unicode. -/
def isWordChar (c : Char) : Bool :=
  c.isAlphanum || c = '_' || (0xC0 ≤ c.toNat && c.toNat ≤ 0x17F)

/-- The character class `[\w~<>]` of `RE_SLASHES` and `RE_DOTS`. -/
def isW2 (c : Char) : Bool :=
  isWordChar c || c = '~' || c = '<' || c = '>'

/-- The escape replacement of `pre_process`'s closure: the eight
syntax-significant characters become readable placeholder tokens; any other
escaped character is emitted bare (`format!("{}", n)` drops the tilde). -/
def escRepl (c : Char) : Str :=
  if c = ' ' then str r"~<space>"
  else if c = '~' then str r"~<tilde>"
  else if c = '[' then str r"~<leftsquare>"
  else if c = ']' then str r"~<rightsquare>"
  else if c = '{' then str r"~<leftcurly>"
  else if c = '}' then str r"~<rightcurly>"
  else if c = '/' then str r"~<slash>"
  else if c = '·' then str r"~<median>"
  else [c]

/-- `Generator::pre_process`: `RE.replace_all` for `~(.)` (where `.` does
not match a newline), scanning left to right.  A trailing `~`, or a `~`
before a newline, is not a match and passes through. -/
def preProcess : Str → Str
  | [] => []
  | c :: rest =>
    if c = '~' then
      match rest with
      | [] => ['~']
      | c2 :: rest2 =>
        if c2 = '\n' then '~' :: '\n' :: preProcess rest2
        else escRepl c2 ++ preProcess rest2
    else c :: preProcess rest

/-- The match arms of `post_process`'s closure; `none` models the
`unreachable!()` arm (a panic). -/
def placeholderChar (w : Str) : Option Char :=
  if w = str r"space" then some ' '
  else if w = str r"tilde" then some '~'
  else if w = str r"leftsquare" then some '['
  else if w = str r"rightsquare" then some ']'
  else if w = str r"leftcurly" then some '{'
  else if w = str r"rightcurly" then some '}'
  else if w = str r"slash" then some '/'
  else if w = str r"median" then some '·'
  else none

/-- Worker for `post_process`, structurally recursive on a bound that the
wrapper keeps strictly above the remaining length (so the fuel-out arm is
never reached). -/
def postProcessAux : Nat → Str → Option Str
  | _, [] => some []
  | 0, _ :: _ => none
  | n + 1, c :: rest =>
    if c = '~' then
      match rest with
      | '<' :: rest1 =>
        match rest1.takeWhile isWordChar, rest1.dropWhile isWordChar with
        | [], _ => (postProcessAux n rest).map ('~' :: ·)
        | w, '>' :: rest2 =>
          match placeholderChar w with
          | some ch => (postProcessAux n rest2).map (ch :: ·)
          | none => none
        | _, _ => (postProcessAux n rest).map ('~' :: ·)
      | _ => (postProcessAux n rest).map (c :: ·)
    else (postProcessAux n rest).map (c :: ·)

/-- `Generator::post_process`: `RE.replace_all` for `~<(\w+)>`.  Returns
`none` when the closure would hit its `unreachable!()` arm (a panic). -/
def postProcess (s : Str) : Option Str := postProcessAux (s.length + 1) s

/-- `Generator::capitalize`.  `symbol.find(char::is_uppercase) == Some(0)`
is "the first character is uppercase"; `find(char::is_lowercase).is_some()`
is "some character is lowercase".  `none` models the `unreachable!()`
reached when the content is empty. -/
def capitalize (symbol content : Str) : Option Str :=
  match symbol with
  | c :: _ =>
    if c.isUpper then
      if symbol.any (·.isLower) then
        match content with
        | [] => none
        | f :: cs => some (f.toUpper :: cs)
      else some (content.map (·.toUpper))
    else some content
  | [] => some content

/-- `str::to_lowercase`, ASCII model. -/
def strLower (s : Str) : Str := s.map Char.toLower

/-- The capture of `(.*)\[(\w*)\]` on a registered name (`add_move`): the
greedy `.*` selects the last bracket group `[w]` whose interior is a
(possibly empty) run of word characters closed by `]`; the text after that
group is discarded by the source (only the two captures are used).
Returns `(prefix, dependency)` or `none` when the pattern does not match. -/
def parseSymAux : Str → Option (Str × Str)
  | [] => none
  | c :: rest =>
    match parseSymAux rest with
    | some (p, d) => some (c :: p, d)
    | none =>
      if c = '[' then
        match rest.takeWhile isWordChar, rest.dropWhile isWordChar with
        | w, ']' :: _ => some ([], w)
        | _, _ => none
      else none

/-- The empty generator (`Generator::new`). -/
def Generator.new : Generator := ⟨[], []⟩

/-- `Generator::add_move`: pre-process symbol and every variant, split an
optional trailing `[dependency]` out of the symbol, and store the rule. -/
def addMove (g : Generator) (symbol : Str) (content : List Str) : Generator :=
  let symbol := preProcess symbol
  let content := content.map preProcess
  match parseSymAux symbol with
  | some (base, dep) =>
    { g with replacements := insertR g.replacements base ⟨some dep, content⟩ }
  | none =>
    { g with replacements := insertR g.replacements symbol ⟨none, content⟩ }

/-- `Generator::add`: lower-case the symbol, then `add_move`.  (The source
returns `Result` but never fails here.) -/
def add (g : Generator) (symbol : Str) (content : List Str) : Generator :=
  addMove g (strLower symbol) content

/-- `Generator::set_gender`: seed a pre-resolved entry with empty content.
The source neither lower-cases nor pre-processes the name here. -/
def set_gender (g : Generator) (symbol : Str) (gender : Gender) : Generator :=
  { g with replaced := insertA g.replaced symbol ⟨[], gender⟩ }

/-- The single-letter class `[mfn]` of `RE_SET_GENDER` (lower case only). -/
def genderLetter (c : Char) : Bool := c = 'm' || c = 'f' || c = 'n'

/-- The closure arms of the gender-marker loop.  The source also accepts
`'M' | 'F' | 'N'` in the match arms, but the regex `\[([mfn])\]` never
captures them; they are mirrored here for fidelity. -/
def genderOfChar (c : Char) : Gender :=
  if c = 'm' || c = 'M' then .male
  else if c = 'f' || c = 'F' then .female
  else .neutral

/-- `RE_SET_GENDER.captures_iter`: the genders of all non-overlapping
`[m]`/`[f]`/`[n]` matches, left to right. -/
def genderMarkers : Str → List Gender
  | '[' :: c :: ']' :: rest =>
    if genderLetter c then genderOfChar c :: genderMarkers (rest)
    else genderMarkers (c :: ']' :: rest)
  | _ :: rest => genderMarkers rest
  | [] => []

/-- `RE_SET_GENDER.replace_all(s, "")`: remove every gender marker. -/
def stripGender : Str → Str
  | '[' :: c :: ']' :: rest =>
    if genderLetter c then stripGender rest
    else '[' :: stripGender (c :: ']' :: rest)
  | c :: rest => c :: stripGender rest
  | [] => []

/-- The `RE_DOTS` closure output (lines 313–357 of the source): `rad` and
suffix `A` always captured, optionally `B` and `C`, by gender. -/
def dotFormat (rad A : Str) : Option (Str × Option Str) → Gender → Str
  | none, .male => rad
  | none, .female => rad ++ A
  | none, .neutral => rad ++ '/' :: (rad ++ A)
  | some (_, none), .male => rad ++ A
  | some (B, none), .female => rad ++ B
  | some (B, none), .neutral => rad ++ A ++ '/' :: (rad ++ B)
  | some (_, some C), .male => rad ++ A ++ C
  | some (B, some C), .female => rad ++ B ++ C
  | some (B, some C), .neutral => rad ++ A ++ C ++ '/' :: (rad ++ B ++ C)

/-- The `RE_SLASHES` closure output (lines 360–378 of the source). -/
def slashFormat (M F : Str) (N : Option Str) : Gender → Str
  | .male => M
  | .female => F
  | .neutral =>
    match N with
    | some n => n
    | none => M ++ '/' :: F

/-- The optional second and third suffix segments of `RE_DOTS`
(`(?:·([\w~<>]*))?(?:·([\w~<>]*))?`, greedy): parses the input right after
the first suffix run, returning the captures and the unconsumed rest. -/
def dotsBC : Str → Option (Str × Option Str) × Str
  | '·' :: r4 =>
    match r4.dropWhile isW2 with
    | '·' :: r6 => (some (r4.takeWhile isW2, some (r6.takeWhile isW2)), r6.dropWhile isW2)
    | r5 => (some (r4.takeWhile isW2, none), r5)
  | r3 => (none, r3)

/-- The optional bracketed override group `(?:\[([\w~<>]+)\])?` of
`RE_DOTS`: a non-empty `[\w~<>]+` run closed by `]`, or nothing. -/
def bracketW2 : Str → Option Str × Str
  | '[' :: r8 =>
    match r8.takeWhile isW2, r8.dropWhile isW2 with
    | k :: ks, ']' :: r10 => (some (k :: ks), r10)
    | _, _ => (none, '[' :: r8)
  | s => (none, s)

/-- The optional third alternative `(?:/([\w~<>]*))?` of `RE_SLASHES`. -/
def slashN : Str → Option Str × Str
  | '/' :: r4 => (some (r4.takeWhile isW2), r4.dropWhile isW2)
  | r3 => (none, r3)

/-- The optional bracketed override group `(?:\[(\w+)\])?` of `RE_SLASHES`
(plain word characters only, unlike the `RE_DOTS` override). -/
def bracketW : Str → Option Str × Str
  | '[' :: r8 =>
    match r8.takeWhile isWordChar, r8.dropWhile isWordChar with
    | k :: ks, ']' :: r10 => (some (k :: ks), r10)
    | _, _ => (none, '[' :: r8)
  | s => (none, s)

/-- The typed error taxonomy (the `bail!` sites of the source), each
carrying the symbol or expression named by the message. -/
inductive GenError where
  | unknownSymbol (s : Str)
  | cyclicDependency (s : Str)
  | multipleGenders (s : Str)
  | missingGender (s : Str)
deriving DecidableEq, Repr

/-- Failure outcomes of the embedding: a typed error (`bail!`/`Err`), a
panic (`unwrap`/`unreachable!`), or fuel exhaustion (a model artifact for
the genuinely non-terminating `{{ }}` chains). -/
inductive Fail where
  | err (e : GenError)
  | panicked
  | fuel
deriving DecidableEq, Repr

/-- The common result record of every engine call: resolved text, gender,
and the threaded environment / random state / recursion guard.  Calls that
do not thread some component leave it at a junk value that their caller
ignores, mirroring which `&mut` references the source passes where. -/
structure Out where
  text : Str
  gender : Gender
  env : EnvT
  rng : Rng
  stack : List Str
deriving DecidableEq, Repr

/-- The mutually recursive calls of the engine, defunctionalized so that the
whole recursion is structural on one fuel argument (and therefore reduces
in the kernel). -/
inductive Call where
  | instUtil (sym : Str) (env : EnvT) (rng : Rng) (stack : List Str)
  | replaceC (r : Replacement) (env : EnvT) (rng : Rng) (stack : List Str)
  | getGender (sym : Str) (env : EnvT) (rng : Rng) (stack : List Str)
  | reinst (sym : Str) (rng : Rng)
  | sReinst (s : Str) (rng : Rng)
  | sInst (s : Str) (env : EnvT) (rng : Rng) (stack : List Str)
  | sDots (s : Str) (ga : Gender) (env : EnvT) (rng : Rng) (stack : List Str)
  | sSlash (s : Str) (ga : Gender) (env : EnvT) (rng : Rng) (stack : List Str)

/-- The expansion engine of `generator.rs`, one arm per source function:

* `instUtil`  — `Generator::instantiate_util` (lines 387–425);
* `replaceC`  — `Generator::replace_content` (lines 241–384);
* `getGender` — `Generator::get_gender` (lines 188–205);
* `reinst`    — `Generator::reinstantiate` (lines 207–213);
* `sReinst`   — `RE_REINSTANTIATE.replace_all` with its unwrapping closure;
* `sInst`     — `RE_INSTANTIATE.replace_all` with its unwrapping closure;
* `sDots`     — `RE_DOTS.replace_all` with its unwrapping closure;
* `sSlash`    — `RE_SLASHES.replace_all` with its unwrapping closure.

Every recursive call decrements the fuel once. -/
def engine (g : Generator) : Nat → Call → Except Fail Out
  | 0, _ => .error .fuel
  | fuel + 1, c =>
    match c with
    | .instUtil sym env rng stack =>
      let low := strLower sym
      match lookupA env low with
      | some r =>
        match capitalize sym r.content with
        | some t => .ok ⟨t, .neutral, env, rng, stack⟩
        | none => .error .panicked
      | none =>
        if low ∈ stack then .error (.err (.cyclicDependency sym))
        else
          match lookupR g.replacements low with
          | none => .error (.err (.unknownSymbol sym))
          | some r =>
            match engine g fuel (.replaceC r env rng (low :: stack)) with
            | .error e => .error e
            | .ok o =>
              let env2 := insertA o.env low ⟨o.text, o.gender⟩
              let stack2 := o.stack.erase low
              match lookupA env2 low with
              | none => .error .panicked
              | some rr =>
                match capitalize sym rr.content with
                | some t => .ok ⟨t, .neutral, env2, o.rng, stack2⟩
                | none => .error .panicked
    | .replaceC r env rng stack =>
      let (os, rng1) := chooseL r.content rng
      let s := os.getD []
      let gs := genderMarkers s
      if 2 ≤ gs.length then .error (.err (.multipleGenders s))
      else
        let gender := gs.headD .neutral
        let s1 := stripGender s
        match engine g fuel (.sReinst s1 rng1) with
        | .error e => .error e
        | .ok o1 =>
          match engine g fuel (.sInst o1.text env o1.rng stack) with
          | .error e => .error e
          | .ok o2 =>
            let gaR : Except Fail (Gender × EnvT × Rng × List Str) :=
              match r.gender_dependency with
              | some key =>
                match engine g fuel (.getGender key o2.env o2.rng o2.stack) with
                | .error e => .error e
                | .ok o3 => .ok (o3.gender, o3.env, o3.rng, o3.stack)
              | none => .ok (.neutral, o2.env, o2.rng, o2.stack)
            match gaR with
            | .error e => .error e
            | .ok (ga, env3, rng3, stack3) =>
              match engine g fuel (.sDots o2.text ga env3 rng3 stack3) with
              | .error e => .error e
              | .ok o4 =>
                match engine g fuel (.sSlash o4.text ga o4.env o4.rng o4.stack) with
                | .error e => .error e
                | .ok o5 => .ok ⟨o5.text, gender, o5.env, o5.rng, o5.stack⟩
    | .getGender sym env rng stack =>
      match lookupA env sym with
      | some r => .ok ⟨[], r.gender, env, rng, stack⟩
      | none =>
        match engine g fuel (.instUtil sym env rng stack) with
        | .error e => .error e
        | .ok o =>
          match lookupA o.env sym with
          | some r => .ok ⟨[], r.gender, o.env, o.rng, o.stack⟩
          | none => .error (.err (.missingGender sym))
    | .reinst sym rng =>
      engine g fuel (.instUtil sym g.replaced rng [])
    | .sReinst s rng =>
      match s with
      | '{' :: '{' :: rest =>
        match rest.dropWhile isWordChar with
        | '}' :: '}' :: rest2 =>
          match engine g fuel (.reinst (rest.takeWhile isWordChar) rng) with
          | .error .fuel => .error .fuel
          | .error _ => .error .panicked
          | .ok o =>
            match engine g fuel (.sReinst rest2 o.rng) with
            | .error e => .error e
            | .ok o2 => .ok { o2 with text := o.text ++ o2.text }
        | _ =>
          match engine g fuel (.sReinst ('{' :: rest) rng) with
          | .error e => .error e
          | .ok o2 => .ok { o2 with text := '{' :: o2.text }
      | c :: rest =>
        match engine g fuel (.sReinst rest rng) with
        | .error e => .error e
        | .ok o2 => .ok { o2 with text := c :: o2.text }
      | [] => .ok ⟨[], .neutral, [], rng, []⟩
    | .sInst s env rng stack =>
      match s with
      | '{' :: rest =>
        match rest.dropWhile isWordChar with
        | '}' :: rest2 =>
          match engine g fuel (.instUtil (rest.takeWhile isWordChar) env rng stack) with
          | .error .fuel => .error .fuel
          | .error _ => .error .panicked
          | .ok o =>
            match engine g fuel (.sInst rest2 o.env o.rng o.stack) with
            | .error e => .error e
            | .ok o2 => .ok { o2 with text := o.text ++ o2.text }
        | _ =>
          match engine g fuel (.sInst rest env rng stack) with
          | .error e => .error e
          | .ok o2 => .ok { o2 with text := '{' :: o2.text }
      | c :: rest =>
        match engine g fuel (.sInst rest env rng stack) with
        | .error e => .error e
        | .ok o2 => .ok { o2 with text := c :: o2.text }
      | [] => .ok ⟨[], .neutral, env, rng, stack⟩
    | .sDots s ga env rng stack =>
      match s with
      | [] => .ok ⟨[], .neutral, env, rng, stack⟩
      | c :: rest =>
        if isW2 c then
          let run := s.takeWhile isW2
          match s.dropWhile isW2 with
          | '·' :: r2 =>
            let A := r2.takeWhile isW2
            let bc := dotsBC (r2.dropWhile isW2)
            let ov := bracketW2 bc.2
            let gR : Except Fail (Gender × EnvT × Rng × List Str) :=
              match ov.1 with
              | some k =>
                match engine g fuel (.getGender k env rng stack) with
                | .error .fuel => .error .fuel
                | .error _ => .error .panicked
                | .ok o => .ok (o.gender, o.env, o.rng, o.stack)
              | none => .ok (ga, env, rng, stack)
            match gR with
            | .error e => .error e
            | .ok (γ, env2, rng2, stack2) =>
              match engine g fuel (.sDots ov.2 ga env2 rng2 stack2) with
              | .error e => .error e
              | .ok o2 => .ok { o2 with text := dotFormat run A bc.1 γ ++ o2.text }
          | r1 =>
            match engine g fuel (.sDots r1 ga env rng stack) with
            | .error e => .error e
            | .ok o2 => .ok { o2 with text := run ++ o2.text }
        else
          match engine g fuel (.sDots rest ga env rng stack) with
          | .error e => .error e
          | .ok o2 => .ok { o2 with text := c :: o2.text }
    | .sSlash s ga env rng stack =>
      match s with
      | [] => .ok ⟨[], .neutral, env, rng, stack⟩
      | c :: rest =>
        let run := s.takeWhile isW2
        match s.dropWhile isW2 with
        | '/' :: r2 =>
          let F := r2.takeWhile isW2
          let nC := slashN (r2.dropWhile isW2)
          let ov := bracketW nC.2
          let gR : Except Fail (Gender × EnvT × Rng × List Str) :=
            match ov.1 with
            | some k =>
              match engine g fuel (.getGender k env rng stack) with
              | .error .fuel => .error .fuel
              | .error _ => .error .panicked
              | .ok o => .ok (o.gender, o.env, o.rng, o.stack)
            | none => .ok (ga, env, rng, stack)
          match gR with
          | .error e => .error e
          | .ok (γ, env2, rng2, stack2) =>
            match engine g fuel (.sSlash ov.2 ga env2 rng2 stack2) with
            | .error e => .error e
            | .ok o2 => .ok { o2 with text := slashFormat run F nC.1 γ ++ o2.text }
        | r1 =>
          match run with
          | [] =>
            match engine g fuel (.sSlash rest ga env rng stack) with
            | .error e => .error e
            | .ok o2 => .ok { o2 with text := c :: o2.text }
          | _ :: _ =>
            match engine g fuel (.sSlash r1 ga env rng stack) with
            | .error e => .error e
            | .ok o2 => .ok { o2 with text := run ++ o2.text }

/-- `Generator::instantiate_util` as a named wrapper over the engine. -/
def instantiate_util (g : Generator) (fuel : Nat) (sym : Str) (env : EnvT)
    (rng : Rng) (stack : List Str) : Except Fail (Str × EnvT × Rng × List Str) :=
  match engine g fuel (.instUtil sym env rng stack) with
  | .ok o => .ok (o.text, o.env, o.rng, o.stack)
  | .error e => .error e

/-- `Generator::replace_content` as a named wrapper over the engine. -/
def replace_content (g : Generator) (fuel : Nat) (r : Replacement) (env : EnvT)
    (rng : Rng) (stack : List Str) : Except Fail (Replaced × EnvT × Rng × List Str) :=
  match engine g fuel (.replaceC r env rng stack) with
  | .ok o => .ok (⟨o.text, o.gender⟩, o.env, o.rng, o.stack)
  | .error e => .error e

/-- `Generator::get_gender` as a named wrapper over the engine. -/
def get_gender (g : Generator) (fuel : Nat) (sym : Str) (env : EnvT)
    (rng : Rng) (stack : List Str) : Except Fail (Gender × EnvT × Rng × List Str) :=
  match engine g fuel (.getGender sym env rng stack) with
  | .ok o => .ok (o.gender, o.env, o.rng, o.stack)
  | .error e => .error e

/-- `Generator::reinstantiate`: clone the generator's pre-set `replaced`
map, start a fresh recursion guard, and instantiate; only the text and the
advanced random state survive. -/
def reinstantiate (g : Generator) (fuel : Nat) (sym : Str) (rng : Rng) :
    Except Fail (Str × Rng) :=
  match engine g fuel (.reinst sym rng) with
  | .ok o => .ok (o.text, o.rng)
  | .error e => .error e

/-- The `RE_REINSTANTIATE.replace_all` pass as a named wrapper. -/
def replace_reinstantiate (g : Generator) (fuel : Nat) (s : Str) (rng : Rng) :
    Except Fail (Str × Rng) :=
  match engine g fuel (.sReinst s rng) with
  | .ok o => .ok (o.text, o.rng)
  | .error e => .error e

/-- The `RE_DOTS.replace_all` pass as a named wrapper. -/
def replace_dots (g : Generator) (fuel : Nat) (s : Str) (ga : Gender) (env : EnvT)
    (rng : Rng) (stack : List Str) : Except Fail (Str × EnvT × Rng × List Str) :=
  match engine g fuel (.sDots s ga env rng stack) with
  | .ok o => .ok (o.text, o.env, o.rng, o.stack)
  | .error e => .error e

/-- `Generator::instantiate` (with `thread_rng()` modelled as an explicit
`Rng` argument): expand from a clone of the pre-set map with a fresh guard,
then post-process the final string. -/
def instantiate (g : Generator) (fuel : Nat) (sym : Str) (rng : Rng) :
    Except Fail Str :=
  match engine g fuel (.instUtil sym g.replaced rng []) with
  | .ok o =>
    match postProcess o.text with
    | some t => .ok t
    | none => .error .panicked
  | .error e => .error e

/-- `Generator::instantiate_from_seed`: the same expansion with the random
source deterministically seeded from the integer seed. -/
def instantiate_from_seed (g : Generator) (fuel : Nat) (sym : Str) (seed : Nat) :
    Except Fail Str :=
  instantiate g fuel sym (seedRng seed)

/-- The binding loop of `Generator::msg`: each `(symbol, value)` pair is
run through `replace_content` as a single-variant dependency-free rule and
inserted under the lower-cased name. -/
def msgBindings (g : Generator) (fuel : Nat) :
    List (Str × Str) → EnvT → Rng → List Str → Except Fail (EnvT × Rng × List Str)
  | [], env, rng, stack => .ok (env, rng, stack)
  | (sym, rv) :: rest, env, rng, stack =>
    match engine g fuel (.replaceC ⟨none, [rv]⟩ env rng stack) with
    | .error e => .error e
    | .ok o =>
      msgBindings g fuel rest (insertA o.env (strLower sym) ⟨o.text, o.gender⟩) o.rng o.stack

/-- `Generator::msg`: resolve the bindings, then the template itself as one
more single-variant rule, and return its content.  The source applies no
`pre_process` to the inputs and no `post_process` to the result. -/
def msg (g : Generator) (fuel : Nat) (s : Str) (v : List (Str × Str)) (rng : Rng) :
    Except Fail Str :=
  match msgBindings g fuel v g.replaced rng [] with
  | .error e => .error e
  | .ok (env, rng2, stack) =>
    match engine g fuel (.replaceC ⟨none, [s]⟩ env rng2 stack) with
    | .ok o => .ok o.text
    | .error e => .error e

/-- The syntax-significant character set of the escaper (§4.1 of the spec):
space, the marker character itself, the square brackets, the curly braces,
the slash and the mid-dot. -/
def isSyntaxChar (c : Char) : Bool :=
  c = ' ' || c = '~' || c = '[' || c = ']' || c = '{' || c = '}' || c = '/' || c = '·'

/-- The claim-hypothesis predicate of C5, one character at a time: every
syntax-significant character is immediately preceded by the escape marker
`~`; `prev` is the preceding character, if any. -/
def escapedOnlyAux : Option Char → Str → Bool
  | _, [] => true
  | prev, c :: rest =>
    (!isSyntaxChar c || prev = some '~') && escapedOnlyAux (some c) rest

/-- A string "containing only escaped literal syntax characters" in the
words of claim C5: every syntax-significant character in it is immediately
preceded by the escape marker. -/
def escapedOnly (s : Str) : Bool := escapedOnlyAux none s

/-- Modelled from the spec (claim C1): the claimed mechanism for a
`{{inner}}` occurrence — resolve `inner` starting from a copy of the
*current* resolution environment (so it sees every symbol already resolved
so far), the copy and its result being discarded afterward.  The code's
`reinstantiate` instead starts from the generator's pre-set `replaced`
map; this definition exists to be compared against it. -/
def reinstantiateSpecClaim (g : Generator) (fuel : Nat) (symbol : Str)
    (env : EnvT) (rng : Rng) : Except Fail (Str × Rng) :=
  match engine g fuel (.instUtil symbol env rng []) with
  | .ok o => .ok (o.text, o.rng)
  | .error e => .error e

/-- Claim C1 scenario: a table binding `x` to `"INNER"`, while the current
environment of the enclosing call already resolved `x` to `"OUTER"`. -/
def gC1 : Generator := add .new (str r"x") [str r"INNER"]

/-- The enclosing call's environment for the C1 scenario. -/
def envOuter : EnvT := [(str r"x", ⟨str r"OUTER", .neutral⟩)]

/-- C2 scenario: an unknown symbol referenced through a `{bar}` marker. -/
def gC2panic : Generator := add .new (str r"foo") [str r"{bar}"]

/-- C2 scenario: an unknown symbol referenced through a `{{bar}}` marker. -/
def gC2panic2 : Generator := add .new (str r"foo") [str r"{{bar}}"]

/-- C2 scenario: an unknown symbol referenced through a bracketed override
in slash-agreement markup. -/
def gC2panic3 : Generator := add .new (str r"foo") [str r"a/b[zz]"]

/-- C2 scenario: two gender markers in one variant. -/
def gC2mg : Generator := add .new (str r"x") [str r"[m][f]a"]

/-- C2 scenario: a dependency name whose exact spelling (`P`) is never a
key of the environment (entries are stored lower-cased), so `get_gender`
reaches its `bail!` after a successful instantiation. -/
def gC2miss : Generator :=
  addMove (addMove .new (str r"p") [str r"z"]) (str r"f[P]") [str r"y"]

/-- C2 scenario (the `unexisting` test of the source): `a[b]`, `b[c]`, `c`
unknown. -/
def gC2chain : Generator :=
  add (add .new (str r"a[b]") [str r"Foo"]) (str r"b[c]") [str r"Bar"]

/-- C3 scenario: a rule whose stored variant contains the escape
placeholder for a literal space. -/
def gC3 : Generator := add .new (str r"x") [str r"a~ b"]

/-- C4 scenario, lower-case gender marker. -/
def gC4l : Generator := add .new (str r"x") [str r"[m]a"]

/-- C4 scenario, upper-case gender marker. -/
def gC4u : Generator := add .new (str r"x") [str r"[M]a"]

/-- C6 concrete scenario: dot-agreement driven by a rule-level gender
dependency (`foo[plop]`) and, without a dependency, the neutral fallback. -/
def gC6 : Generator :=
  add (add (add .new (str r"plop") [str r"Joe[m]"])
    (str r"foo[plop]") [str r"un·e"])
    (str r"bare") [str r"un·e"]

/-- C7 concrete scenario: the same symbol referenced twice through the
memoized `{x}` marker. -/
def gC7 : Generator :=
  add (add .new (str r"x") [str r"hi"]) (str r"main") [str r"{x} {x}"]

/-- C7/C1 concrete scenario: a two-variant symbol referenced twice through
the reinstantiation marker `{{x}}`. -/
def gC7r : Generator :=
  add (add .new (str r"x") [str r"a", str r"b"]) (str r"main") [str r"{{x}}{{x}}"]

/-- C8 scenario (the `cyclic` test of the source): mutually
gender-dependent rules. -/
def gC8 : Generator :=
  add (add .new (str r"a[b]") [str r"Foo"]) (str r"b[a]") [str r"Bar"]

/-- C9 witness scenario, built by successive `add` calls. -/
def gC9a : Generator := add (add .new (str r"x") [str r"u"]) (str r"y") [str r"v"]

/-- C9 witness scenario: a literally written generator with the same two
fields as `gC9a`. -/
def gC9b : Generator :=
  ⟨[], [(str r"y", ⟨none, [str r"v"]⟩), (str r"x", ⟨none, [str r"u"]⟩)]⟩

/-- C10 scenario: a symbol with an empty variant list, referenced with a
capitalized use-site spelling. -/
def gC10 : Generator :=
  add (add .new (str r"foo") ([] : List Str)) (str r"main") [str r"{Foo}"]

/-- The environment and recursion guard threaded by an engine call, when
the call threads them (`reinstantiate` and the reinstantiation scan thread
only the random state). -/
def callES : Call → Option (EnvT × List Str)
  | .instUtil _ env _ stack => some (env, stack)
  | .replaceC _ env _ stack => some (env, stack)
  | .getGender _ env _ stack => some (env, stack)
  | .reinst _ _ => none
  | .sReinst _ _ => none
  | .sInst _ env _ stack => some (env, stack)
  | .sDots _ _ env _ stack => some (env, stack)
  | .sSlash _ _ env _ stack => some (env, stack)

/-! ## Theorems -/

/-- Claim C4 (code_bug evidence): the bracketed gender marker is *not*
matched case-insensitively.  The regex `RE_SET_GENDER` is `\[([mfn])\]`,
lower-case only, even though the closure's match arms also list
`"M" | "F" | "N"` (dead code revealing the intent).  On the failing input
`x -> ["[M]a"]`, instantiating `x` leaves the `[M]` marker in the output
text instead of removing it and setting the gender, while the lower-case
`[m]` marker is removed. -/
theorem c4_gender_marker_case :
    instantiate gC4l 100 (str r"x") ⟨0⟩ = .ok (str r"a") ∧
    instantiate gC4u 100 (str r"x") ⟨0⟩ = .ok (str r"[M]a") := by
  constructor
  · decide
  · decide

/-- Claim C8: after registering `a[b] -> ["Foo"]` and `b[a] -> ["Bar"]`,
instantiating `a` fails with the typed `CyclicDependency` error naming the
symbol `a` that depends on itself; the recursion-guard set detects the
cycle through the chain of `get_gender`/`instantiate_util` calls that the
two gender dependencies induce. -/
theorem c8_cycle_rejection :
    instantiate gC8 100 (str r"a") ⟨0⟩ =
      .error (.err (.cyclicDependency (str r"a"))) := by
  decide

/-- Claim C2 (counterexample): a failing symbol referenced via a `{symbol}`
marker inside a variant is *not* reported to the caller as a typed failure
value: with `foo -> ["{bar}"]` and `bar` unknown, the expansion reaches the
`.unwrap()` inside the `RE_INSTANTIATE.replace_all` closure and panics
(`Fail.panicked`), which is a different outcome from every
`Fail.err _` typed failure. -/
theorem c2_counterexample :
    instantiate gC2panic 100 (str r"foo") ⟨0⟩ = .error .panicked := by
  decide

/-- Claim C2 (amended): failures reached through the top-level lookup and
through the gender-dependency chain (`get_gender` called with `?`) are
returned as typed failure values, aborting the whole call with no partial
output — an unknown top-level symbol (proved in general), a cyclic
dependency, multiple gender markers in one variant, a missing gender
source, and an unknown symbol at the end of a dependency chain.  By
contrast, failures reached inside the `{symbol}`, `{{symbol}}`, or
bracketed-override replacement closures abort via panic (`unwrap`), not as
typed failure values. -/
theorem c2_amended :
    (∀ (g : Generator) (f : Nat) (sym : Str) (rng : Rng),
      lookupA g.replaced (strLower sym) = none →
      lookupR g.replacements (strLower sym) = none →
      instantiate g (f + 1) sym rng = .error (.err (.unknownSymbol sym))) ∧
    instantiate gC8 100 (str r"a") ⟨1⟩ = .error (.err (.cyclicDependency (str r"a"))) ∧
    instantiate gC2mg 100 (str r"x") ⟨0⟩ = .error (.err (.multipleGenders (str r"[m][f]a"))) ∧
    instantiate gC2miss 100 (str r"f") ⟨0⟩ = .error (.err (.missingGender (str r"P"))) ∧
    instantiate gC2chain 100 (str r"a") ⟨0⟩ = .error (.err (.unknownSymbol (str r"c"))) ∧
    instantiate gC2panic 100 (str r"foo") ⟨0⟩ = .error .panicked ∧
    instantiate gC2panic2 100 (str r"foo") ⟨0⟩ = .error .panicked ∧
    instantiate gC2panic3 100 (str r"foo") ⟨0⟩ = .error .panicked := by
  refine ⟨?_, by decide, by decide, by decide, by decide, by decide, by decide, by decide⟩
  intro g f sym rng h1 h2
  simp [instantiate, engine, h1, h2]

/-- Witness for the general conjunct of `c2_amended`: the empty generator
has no rule and no pre-set entry for `zzz`, and instantiating it returns
the typed `UnknownSymbol` failure. -/
theorem c2_amended_witness :
    instantiate Generator.new 6 (str r"zzz") ⟨0⟩ =
      .error (.err (.unknownSymbol (str r"zzz"))) :=
  c2_amended.1 Generator.new 5 (str r"zzz") ⟨0⟩ (by decide) (by decide)

/-- Claim C3 (counterexample): `msg` does not return the unescaped final
string.  With `x` registered from `"a~ b"` (stored as `a~<space>b`),
`msg("{x}", [])` returns the text still containing the escape placeholder,
while `instantiate("x")` returns the unescaped `a b`; the two differ. -/
theorem c3_counterexample :
    msg gC3 100 (str r"{x}") [] ⟨0⟩ = .ok (str r"a~<space>b") ∧
    instantiate gC3 100 (str r"x") ⟨0⟩ = .ok (str r"a b") ∧
    str r"a~<space>b" ≠ str r"a b" := by
  refine ⟨by decide, by decide, by decide⟩

/-- Claim C3 (amended): `msg` returns the assembled final string *without*
the unescaping step: escape placeholders remain in its result, and applying
the post-processing that `instantiate` performs at the end of a top-level
expansion to `msg`'s result yields exactly the string `instantiate`
returns. -/
theorem c3_amended :
    msg gC3 100 (str r"{x}") [] ⟨0⟩ = .ok (str r"a~<space>b") ∧
    postProcess (str r"a~<space>b") = some (str r"a b") ∧
    instantiate gC3 100 (str r"x") ⟨0⟩ = .ok (str r"a b") := by
  refine ⟨by decide, by decide, by decide⟩

/-- Claim C9: the output of `instantiate_from_seed` is a deterministic
function of the (table, pre-set map, symbol, seed) tuple: two generators
with equal fields yield identical results for every symbol, seed and fuel.
In the embedding the random source is seeded as a pure function of the
seed, mirroring `SmallRng::seed_from_u64`, so two calls with the same
arguments cannot differ. -/
theorem c9_determinism (g₁ g₂ : Generator) (fuel : Nat) (sym : Str) (seed : Nat)
    (hrep : g₁.replacements = g₂.replacements) (hpre : g₁.replaced = g₂.replaced) :
    instantiate_from_seed g₁ fuel sym seed = instantiate_from_seed g₂ fuel sym seed := by
  cases g₁
  cases g₂
  simp_all

/-- Witness for `c9_determinism`: `gC9a` (built by two `add` calls) and
`gC9b` (written literally) have equal fields, so their seeded expansions
agree. -/
theorem c9_determinism_witness :
    instantiate_from_seed gC9a 50 (str r"x") 42 =
      instantiate_from_seed gC9b 50 (str r"x") 42 :=
  c9_determinism gC9a gC9b 50 (str r"x") 42 (by decide) (by decide)

/-- Claim C10: `capitalize` is not total at the public interface.  In
general, whenever the content is empty and the use-site spelling starts
with an upper-case letter and contains a lower-case letter, `capitalize`
reaches the `unreachable!()` branch (modelled `none`, a panic) instead of
returning the empty string; and concretely, a symbol registered with an
empty variant list and referenced as `{Foo}` makes the whole `instantiate`
call panic. -/
theorem c10_capitalize_partial :
    (∀ (c : Char) (rest : Str), c.isUpper = true →
      (c :: rest).any (·.isLower) = true → capitalize (c :: rest) [] = none) ∧
    instantiate gC10 100 (str r"main") ⟨0⟩ = .error .panicked := by
  constructor
  · intro c rest h1 h2
    simp [capitalize, h1, h2]
  · decide

/-- Witness for the general conjunct of `c10_capitalize_partial`:
`capitalize "Foo" ""` panics. -/
theorem c10_capitalize_partial_witness :
    capitalize ('F' :: str r"oo") [] = none :=
  c10_capitalize_partial.1 'F' (str r"oo") (by decide) (by decide)

/-- A string in which every syntax-significant character is immediately
preceded by `~` contains no syntax-significant character at all: the
leftmost one would itself need a `~` (a syntax-significant character)
before it. -/
lemma escapedOnlyAux_no_syntax :
    ∀ (s : Str) (prev : Option Char), prev ≠ some '~' →
      escapedOnlyAux prev s = true → ∀ c ∈ s, isSyntaxChar c = false := by
  intro s
  induction s with
  | nil => intro prev _ _ c hc; cases hc
  | cons a rest ih =>
    intro prev hprev h c hc
    rw [escapedOnlyAux] at h
    simp only [Bool.and_eq_true, Bool.or_eq_true, Bool.not_eq_true'] at h
    obtain ⟨h1, h2⟩ := h
    have ha : isSyntaxChar a = false := by
      rcases h1 with h1 | h1
      · exact h1
      · exact absurd (of_decide_eq_true h1) hprev
    rcases List.mem_cons.mp hc with rfl | hc
    · exact ha
    · refine ih (some a) ?_ h2 c hc
      intro heq
      rw [Option.some_inj] at heq
      subst heq
      simp [isSyntaxChar] at ha

/-- `pre_process` is the identity on strings without syntax-significant
characters (the regex `~(.)` cannot match without a `~`). -/
lemma preProcess_eq_self (s : Str) (h : ∀ c ∈ s, isSyntaxChar c = false) :
    preProcess s = s := by
  induction s with
  | nil => rfl
  | cons a rest ih =>
    have ha : ¬(a = '~') := by
      intro heq
      subst heq
      have := h '~' (List.mem_cons_self _ _)
      simp [isSyntaxChar] at this
    rw [preProcess.eq_def]
    simp only [if_neg ha]
    rw [ih (fun c hc => h c (List.mem_cons_of_mem _ hc))]

/-- `post_process` is the identity on strings without syntax-significant
characters, for any large enough structural bound. -/
lemma postProcessAux_eq_self :
    ∀ (s : Str) (n : Nat), s.length ≤ n → (∀ c ∈ s, isSyntaxChar c = false) →
      postProcessAux n s = some s := by
  intro s
  induction s with
  | nil => intro n _ _; cases n <;> rfl
  | cons a rest ih =>
    intro n hlen h
    match n with
    | 0 => simp at hlen
    | m + 1 =>
      have ha : ¬(a = '~') := by
        intro heq
        subst heq
        have := h '~' (List.mem_cons_self _ _)
        simp [isSyntaxChar] at this
      rw [postProcessAux.eq_def]
      simp only [if_neg ha]
      rw [ih m (by simpa using hlen) (fun c hc => h c (List.mem_cons_of_mem _ hc))]
      rfl

/-- Claim C5: for every string containing only escaped literal syntax
characters (every syntax-significant character immediately preceded by the
escape marker), post-processing exactly inverts pre-processing:
`unescape(escape(s)) = s`. -/
theorem c5_escape_roundtrip (s : Str) (h : escapedOnly s = true) :
    postProcess (preProcess s) = some s := by
  have hns := escapedOnlyAux_no_syntax s none (by simp) h
  rw [preProcess_eq_self s hns]
  exact postProcessAux_eq_self s (s.length + 1) (Nat.le_succ _) hns

/-- Witness for `c5_escape_roundtrip` at the concrete string `foobar`. -/
theorem c5_escape_roundtrip_witness :
    escapedOnly (str r"foobar") = true ∧
      postProcess (preProcess (str r"foobar")) = some (str r"foobar") :=
  ⟨by decide, c5_escape_roundtrip (str r"foobar") (by decide)⟩

/-- `takeWhile` stops exactly at the first failing character after an
all-satisfying prefix. -/
lemma takeWhile_append_all (p : Char → Bool) :
    ∀ (l : Str) (b : Char) (r : Str), (∀ c ∈ l, p c = true) → p b = false →
      (l ++ b :: r).takeWhile p = l := by
  intro l
  induction l with
  | nil => intro b r _ hb; simp [List.takeWhile, hb]
  | cons a l ih =>
    intro b r h hb
    have ha := h a (List.mem_cons_self _ _)
    simp only [List.cons_append, List.takeWhile, ha]
    rw [List.append_eq, ih b r (fun c hc => h c (List.mem_cons_of_mem _ hc)) hb]

/-- `dropWhile` drops exactly the all-satisfying prefix. -/
lemma dropWhile_append_all (p : Char → Bool) :
    ∀ (l : Str) (b : Char) (r : Str), (∀ c ∈ l, p c = true) → p b = false →
      (l ++ b :: r).dropWhile p = b :: r := by
  intro l
  induction l with
  | nil => intro b r _ hb; simp [List.dropWhile, hb]
  | cons a l ih =>
    intro b r h hb
    have ha := h a (List.mem_cons_self _ _)
    simp only [List.cons_append, List.dropWhile, ha]
    rw [List.append_eq]
    exact ih b r (fun c hc => h c (List.mem_cons_of_mem _ hc)) hb

/-- `takeWhile` keeps an all-satisfying list whole. -/
lemma takeWhile_all (p : Char → Bool) :
    ∀ (l : Str), (∀ c ∈ l, p c = true) → l.takeWhile p = l := by
  intro l
  induction l with
  | nil => intro _; rfl
  | cons a l ih =>
    intro h
    have ha := h a (List.mem_cons_self _ _)
    simp only [List.takeWhile, ha]
    rw [ih (fun c hc => h c (List.mem_cons_of_mem _ hc))]

/-- `dropWhile` exhausts an all-satisfying list. -/
lemma dropWhile_all (p : Char → Bool) :
    ∀ (l : Str), (∀ c ∈ l, p c = true) → l.dropWhile p = [] := by
  intro l
  induction l with
  | nil => intro _; rfl
  | cons a l ih =>
    intro h
    have ha := h a (List.mem_cons_self _ _)
    simp only [List.dropWhile, ha]
    exact ih (fun c hc => h c (List.mem_cons_of_mem _ hc))

/-- Claim C1 (counterexample): a `{{x}}` occurrence is *not* resolved from
a copy of the current resolution environment.  With the table binding `x`
to `"INNER"` while the current environment already maps `x` to `"OUTER"`,
the code's `replace_content` produces `INNER` (a fresh instantiation from
the generator's base map), whereas the claimed mechanism — resolving from a
copy of the current environment, hence hitting the memoized entry — yields
`OUTER`. -/
theorem c1_counterexample :
    (replace_content gC1 50 ⟨none, [str r"{{x}}"]⟩ envOuter ⟨0⟩ []).toOption.map
        (fun p => p.1.content) = some (str r"INNER") ∧
    (reinstantiateSpecClaim gC1 50 (str r"x") envOuter ⟨0⟩).toOption.map
        (fun p => p.1) = some (str r"OUTER") ∧
    str r"INNER" ≠ str r"OUTER" := by
  refine ⟨by decide, by decide, by decide⟩

/-- Claim C1 (amended): each `{{inner}}` occurrence is resolved
independently by `reinstantiate`, which starts from a fresh copy of the
*generator's pre-set* `replaced` map (not the enclosing call's current
environment) with a fresh recursion guard; the copy and its result are
discarded afterward and only the advanced random state flows on, so each
occurrence gets its own fresh random pick not shared with the outer call or
with other occurrences.  Conjuncts: (1) the reinstantiation pass resolves a
`{{w}}` occurrence through `reinstantiate` and splices the result before
the independently processed remainder; (2) `reinstantiate` is exactly
`instantiate_util` launched on `g.replaced` with an empty guard, keeping
only text and random state; (3) concretely, two `{{x}}` occurrences of a
two-variant symbol draw different variants in one call. -/
theorem c1_amended :
    (∀ (g : Generator) (f : Nat) (w rest : Str) (rng : Rng) (t : Str) (rng2 : Rng)
      (t2 : Str) (rng3 : Rng),
      (∀ c ∈ w, isWordChar c = true) →
      reinstantiate g f w rng = .ok (t, rng2) →
      replace_reinstantiate g f rest rng2 = .ok (t2, rng3) →
      replace_reinstantiate g (f + 1) ('{' :: '{' :: (w ++ '}' :: '}' :: rest)) rng =
        .ok (t ++ t2, rng3)) ∧
    (∀ (g : Generator) (f : Nat) (w : Str) (rng : Rng) (t : Str) (env2 : EnvT)
      (rng2 : Rng) (stack2 : List Str),
      instantiate_util g f w g.replaced rng [] = .ok (t, env2, rng2, stack2) →
      reinstantiate g (f + 1) w rng = .ok (t, rng2)) ∧
    instantiate gC7r 200 (str r"main") ⟨0⟩ = .ok (str r"ba") := by
  refine ⟨?_, ?_, by decide⟩
  · intro g f w rest rng t rng2 t2 rng3 hw hre hrest
    rw [replace_reinstantiate, engine]
    rw [dropWhile_append_all isWordChar w '}' ('}' :: rest) hw (by decide),
      takeWhile_append_all isWordChar w '}' ('}' :: rest) hw (by decide)]
    rw [reinstantiate] at hre
    rw [replace_reinstantiate] at hrest
    cases heng : engine g f (.reinst w rng) with
    | error e => rw [heng] at hre; cases hre
    | ok o =>
      rw [heng] at hre
      injection hre with hre
      injection hre with hre1 hre2
      cases heng2 : engine g f (.sReinst rest o.rng) with
      | error e =>
        rw [← hre2] at hrest
        rw [heng2] at hrest
        cases hrest
      | ok o2 =>
        rw [← hre2] at hrest
        rw [heng2] at hrest
        injection hrest with hrest
        injection hrest with hrest1 hrest2
        simp [heng, heng2, hre1, hrest1, hrest2]
  · intro g f w rng t env2 rng2 stack2 hiu
    rw [instantiate_util] at hiu
    rw [reinstantiate, engine]
    cases heng : engine g f (.instUtil w g.replaced rng []) with
    | error e => rw [heng] at hiu; cases hiu
    | ok o =>
      rw [heng] at hiu
      injection hiu with hiu
      simp at hiu
      simp [hiu]

/-- Witness for `c1_amended`: the `{{x}}` occurrence of the C1 scenario,
resolved from the generator's base map (one draw is consumed, advancing the
modelled random state from 0 to 12345). -/
theorem c1_amended_witness :
    replace_reinstantiate gC1 31 ('{' :: '{' :: (str r"x" ++ '}' :: '}' :: [])) ⟨0⟩ =
      .ok (str r"INNER" ++ [], ⟨12345⟩) :=
  c1_amended.1 gC1 30 (str r"x") [] ⟨0⟩ (str r"INNER") ⟨12345⟩ [] ⟨12345⟩
    (by decide) (by decide) (by decide)

/-- Claim C6: the dot-agreement markup table.  For a variant that is the
markup itself (word-run segments separated by mid-dots, optionally followed
by a bracketed gender-symbol override), with the gender taken from the
override symbol's resolved gender when the override is present (conjunct 4,
with the override already resolved in the environment) and otherwise from
`gender_adapt` (the rule's gender dependency, Neutral if none; conjuncts
1–3): with 2 segments the output is `root` for Male, `root+A` for Female,
`root/rootA` for Neutral; with 3 segments `root+A` / `root+B` /
`rootA/rootB`; with 4 segments `root+A+C` / `root+B+C` / `rootAC/rootBC`.
Conjunct 5 exercises the gender-dependency source concretely: `foo[plop]`
with `plop -> ["Joe[m]"]` renders `un·e` as `un`, and a dependency-free
rule renders the neutral `un/une`. -/
theorem c6_dot_agreement :
    (∀ (g : Generator) (f : Nat) (root A : Str) (ga : Gender) (env : EnvT)
      (rng : Rng) (stack : List Str),
      root ≠ [] → (∀ c ∈ root, isW2 c = true) → (∀ c ∈ A, isW2 c = true) →
      replace_dots g (f + 2) (root ++ '·' :: A) ga env rng stack =
        .ok ((match ga with
          | .male => root
          | .female => root ++ A
          | .neutral => root ++ '/' :: (root ++ A)), env, rng, stack)) ∧
    (∀ (g : Generator) (f : Nat) (root A B : Str) (ga : Gender) (env : EnvT)
      (rng : Rng) (stack : List Str),
      root ≠ [] → (∀ c ∈ root, isW2 c = true) → (∀ c ∈ A, isW2 c = true) →
      (∀ c ∈ B, isW2 c = true) →
      replace_dots g (f + 2) (root ++ '·' :: (A ++ '·' :: B)) ga env rng stack =
        .ok ((match ga with
          | .male => root ++ A
          | .female => root ++ B
          | .neutral => root ++ A ++ '/' :: (root ++ B)), env, rng, stack)) ∧
    (∀ (g : Generator) (f : Nat) (root A B C : Str) (ga : Gender) (env : EnvT)
      (rng : Rng) (stack : List Str),
      root ≠ [] → (∀ c ∈ root, isW2 c = true) → (∀ c ∈ A, isW2 c = true) →
      (∀ c ∈ B, isW2 c = true) → (∀ c ∈ C, isW2 c = true) →
      replace_dots g (f + 2) (root ++ '·' :: (A ++ '·' :: (B ++ '·' :: C))) ga env rng stack =
        .ok ((match ga with
          | .male => root ++ A ++ C
          | .female => root ++ B ++ C
          | .neutral => root ++ A ++ C ++ '/' :: (root ++ B ++ C)), env, rng, stack)) ∧
    (∀ (g : Generator) (f : Nat) (root A k : Str) (entry : Replaced) (ga : Gender)
      (env : EnvT) (rng : Rng) (stack : List Str),
      root ≠ [] → (∀ c ∈ root, isW2 c = true) → (∀ c ∈ A, isW2 c = true) →
      k ≠ [] → (∀ c ∈ k, isW2 c = true) →
      lookupA env k = some entry →
      replace_dots g (f + 2) (root ++ '·' :: (A ++ '[' :: (k ++ [']']))) ga env rng stack =
        .ok ((match entry.gender with
          | .male => root
          | .female => root ++ A
          | .neutral => root ++ '/' :: (root ++ A)), env, rng, stack)) ∧
    (instantiate gC6 300 (str r"foo") ⟨0⟩ = .ok (str r"un") ∧
      instantiate gC6 300 (str r"bare") ⟨0⟩ = .ok (str r"un/une")) := by
  refine ⟨?_, ?_, ?_, ?_, by decide, by decide⟩
  · intro g f root A ga env rng stack hne hroot hA
    obtain ⟨r0, rs, rfl⟩ := List.exists_cons_of_ne_nil hne
    have h1 : ((r0 :: rs) ++ '·' :: A).takeWhile isW2 = r0 :: rs :=
      takeWhile_append_all isW2 (r0 :: rs) '·' A hroot (by decide)
    have h2 : ((r0 :: rs) ++ '·' :: A).dropWhile isW2 = '·' :: A :=
      dropWhile_append_all isW2 (r0 :: rs) '·' A hroot (by decide)
    have h3 : A.takeWhile isW2 = A := takeWhile_all isW2 A hA
    have h4 : A.dropWhile isW2 = [] := dropWhile_all isW2 A hA
    have hr0 : isW2 r0 = true := hroot r0 (List.mem_cons_self _ _)
    simp only [List.cons_append] at h1 h2 ⊢
    rw [replace_dots, engine]
    simp only [hr0, if_true, h1, h2, h3, h4, dotsBC, bracketW2]
    rw [engine]
    cases ga <;> simp [dotFormat]
  · intro g f root A B ga env rng stack hne hroot hA hB
    obtain ⟨r0, rs, rfl⟩ := List.exists_cons_of_ne_nil hne
    have h1 : ((r0 :: rs) ++ '·' :: (A ++ '·' :: B)).takeWhile isW2 = r0 :: rs :=
      takeWhile_append_all isW2 (r0 :: rs) '·' (A ++ '·' :: B) hroot (by decide)
    have h2 : ((r0 :: rs) ++ '·' :: (A ++ '·' :: B)).dropWhile isW2 = '·' :: (A ++ '·' :: B) :=
      dropWhile_append_all isW2 (r0 :: rs) '·' (A ++ '·' :: B) hroot (by decide)
    have h3 : (A ++ '·' :: B).takeWhile isW2 = A :=
      takeWhile_append_all isW2 A '·' B hA (by decide)
    have h4 : (A ++ '·' :: B).dropWhile isW2 = '·' :: B :=
      dropWhile_append_all isW2 A '·' B hA (by decide)
    have h5 : B.takeWhile isW2 = B := takeWhile_all isW2 B hB
    have h6 : B.dropWhile isW2 = [] := dropWhile_all isW2 B hB
    have hr0 : isW2 r0 = true := hroot r0 (List.mem_cons_self _ _)
    simp only [List.cons_append] at h1 h2 ⊢
    rw [replace_dots, engine]
    simp only [hr0, if_true, h1, h2, h3, h4, h5, h6, dotsBC, bracketW2]
    rw [engine]
    cases ga <;> simp [dotFormat]
  · intro g f root A B C ga env rng stack hne hroot hA hB hC
    obtain ⟨r0, rs, rfl⟩ := List.exists_cons_of_ne_nil hne
    have h1 : ((r0 :: rs) ++ '·' :: (A ++ '·' :: (B ++ '·' :: C))).takeWhile isW2 = r0 :: rs :=
      takeWhile_append_all isW2 (r0 :: rs) '·' _ hroot (by decide)
    have h2 : ((r0 :: rs) ++ '·' :: (A ++ '·' :: (B ++ '·' :: C))).dropWhile isW2 =
        '·' :: (A ++ '·' :: (B ++ '·' :: C)) :=
      dropWhile_append_all isW2 (r0 :: rs) '·' _ hroot (by decide)
    have h3 : (A ++ '·' :: (B ++ '·' :: C)).takeWhile isW2 = A :=
      takeWhile_append_all isW2 A '·' _ hA (by decide)
    have h4 : (A ++ '·' :: (B ++ '·' :: C)).dropWhile isW2 = '·' :: (B ++ '·' :: C) :=
      dropWhile_append_all isW2 A '·' _ hA (by decide)
    have h5 : (B ++ '·' :: C).takeWhile isW2 = B :=
      takeWhile_append_all isW2 B '·' C hB (by decide)
    have h6 : (B ++ '·' :: C).dropWhile isW2 = '·' :: C :=
      dropWhile_append_all isW2 B '·' C hB (by decide)
    have h7 : C.takeWhile isW2 = C := takeWhile_all isW2 C hC
    have h8 : C.dropWhile isW2 = [] := dropWhile_all isW2 C hC
    have hr0 : isW2 r0 = true := hroot r0 (List.mem_cons_self _ _)
    simp only [List.cons_append] at h1 h2 ⊢
    rw [replace_dots, engine]
    simp only [hr0, if_true, h1, h2, h3, h4, h5, h6, h7, h8, dotsBC, bracketW2]
    rw [engine]
    cases ga <;> simp [dotFormat]
  · intro g f root A k entry ga env rng stack hne hroot hA hkne hk hlook
    obtain ⟨r0, rs, rfl⟩ := List.exists_cons_of_ne_nil hne
    obtain ⟨k0, ks, rfl⟩ := List.exists_cons_of_ne_nil hkne
    have h1 : ((r0 :: rs) ++ '·' :: (A ++ '[' :: ((k0 :: ks) ++ [']']))).takeWhile isW2 =
        r0 :: rs :=
      takeWhile_append_all isW2 (r0 :: rs) '·' _ hroot (by decide)
    have h2 : ((r0 :: rs) ++ '·' :: (A ++ '[' :: ((k0 :: ks) ++ [']']))).dropWhile isW2 =
        '·' :: (A ++ '[' :: ((k0 :: ks) ++ [']'])) :=
      dropWhile_append_all isW2 (r0 :: rs) '·' _ hroot (by decide)
    have h3 : (A ++ '[' :: ((k0 :: ks) ++ [']'])).takeWhile isW2 = A :=
      takeWhile_append_all isW2 A '[' _ hA (by decide)
    have h4 : (A ++ '[' :: ((k0 :: ks) ++ [']'])).dropWhile isW2 =
        '[' :: ((k0 :: ks) ++ [']']) :=
      dropWhile_append_all isW2 A '[' _ hA (by decide)
    have h5 : ((k0 :: ks) ++ [']']).takeWhile isW2 = k0 :: ks := by
      have := takeWhile_append_all isW2 (k0 :: ks) ']' [] hk (by decide)
      simpa using this
    have h6 : ((k0 :: ks) ++ [']']).dropWhile isW2 = [']'] := by
      have := dropWhile_append_all isW2 (k0 :: ks) ']' [] hk (by decide)
      simpa using this
    have hr0 : isW2 r0 = true := hroot r0 (List.mem_cons_self _ _)
    simp only [List.cons_append] at h1 h2 h3 h4 h5 h6 ⊢
    rw [replace_dots, engine]
    simp only [hr0, if_true, h1, h2, h3, h4, h5, h6]
    cases hg : entry.gender <;> simp [engine, hlook, hg, dotFormat, dotsBC, bracketW2, h1, h2, h3, h4, h5, h6]

/-- Witness for `c6_dot_agreement`: the 2-segment markup `un·e` rendered
with gender Female yields `une`, and with an override symbol resolved
Male in the environment yields `un`. -/
theorem c6_dot_agreement_witness :
    replace_dots Generator.new 10 (str r"un" ++ '·' :: str r"e") .female [] ⟨0⟩ [] =
      .ok (str r"un" ++ str r"e", [], ⟨0⟩, []) ∧
    replace_dots Generator.new 10
        (str r"un" ++ '·' :: (str r"e" ++ '[' :: (str r"w" ++ [']'])))
        .neutral [(str r"w", ⟨[], .male⟩)] ⟨0⟩ [] =
      .ok (str r"un", [(str r"w", ⟨[], .male⟩)], ⟨0⟩, []) :=
  ⟨c6_dot_agreement.1 Generator.new 8 (str r"un") (str r"e") .female [] ⟨0⟩ []
      (by decide) (by decide) (by decide),
    c6_dot_agreement.2.2.2.1 Generator.new 8 (str r"un") (str r"e") (str r"w")
      ⟨[], .male⟩ .neutral [(str r"w", ⟨[], .male⟩)] ⟨0⟩ []
      (by decide) (by decide) (by decide) (by decide) (by decide) (by decide)⟩

lemma lookupA_insert_self (m : EnvT) (k : Str) (v : Replaced) :
    lookupA (insertA m k v) k = some v := by
  simp [lookupA, insertA]

lemma lookupA_insert_ne (m : EnvT) (k k2 : Str) (v : Replaced) (h : k2 ≠ k) :
    lookupA (insertA m k v) k2 = lookupA m k2 := by
  simp only [insertA, lookupA]
  rw [if_neg]
  intro hh
  exact h hh.symm

set_option maxHeartbeats 2000000 in
lemma engine_env_mono (g : Generator) :
    ∀ (fuel : Nat) (c : Call) (out : Out) (env : EnvT) (st : List Str),
      engine g fuel c = .ok out → callES c = some (env, st) →
      out.stack = st ∧
      (∀ k v, lookupA env k = some v → lookupA out.env k = some v) ∧
      (∀ k, k ∈ st → lookupA env k = none → lookupA out.env k = none) := by
  intro fuel
  induction fuel with
  | zero => intro c out env st h _; cases h
  | succ f ih =>
    intro c out env st heng hc
    cases c with
    | reinst sym rng => cases hc
    | sReinst s rng => cases hc
    | instUtil sym env0 rng stack0 =>
      injection hc with hc
      injection hc with hc1 hc2
      subst hc1; subst hc2
      rw [engine] at heng
      split at heng
      · split at heng
        · injection heng with h
          subst h
          exact ⟨rfl, fun k v hv => hv, fun k _ hn => hn⟩
        · cases heng
      · rename_i hm
        split at heng
        · cases heng
        · rename_i hst
          split at heng
          · cases heng
          · rename_i r hrr
            split at heng
            · cases heng
            · rename_i o hrc
              obtain ⟨hos, hmono, hnone⟩ := ih _ o env0 (strLower sym :: stack0) hrc rfl
              simp only [] at heng
              rw [lookupA_insert_self] at heng
              split at heng
              · cases heng
              · rename_i rr heq
                split at heng
                · rename_i t hcap
                  injection heng with h
                  subst h
                  refine ⟨?_, ?_, ?_⟩
                  · simp [hos, List.erase_cons_head]
                  · intro k v hv
                    have hk : k ≠ strLower sym := by
                      intro heq2; subst heq2; rw [hm] at hv; cases hv
                    show lookupA (insertA o.env (strLower sym) ⟨o.text, o.gender⟩) k = some v
                    rw [lookupA_insert_ne _ _ _ _ hk]
                    exact hmono k v hv
                  · intro k hkin hkn
                    have hk : k ≠ strLower sym := by
                      intro heq2; subst heq2; exact hst hkin
                    show lookupA (insertA o.env (strLower sym) ⟨o.text, o.gender⟩) k = none
                    rw [lookupA_insert_ne _ _ _ _ hk]
                    exact hnone k (List.mem_cons_of_mem _ hkin) hkn
                · cases heng
    | getGender sym env0 rng stack0 =>
      injection hc with hc
      injection hc with hc1 hc2
      subst hc1; subst hc2
      rw [engine] at heng
      split at heng
      · injection heng with h
        subst h
        exact ⟨rfl, fun k v hv => hv, fun k _ hn => hn⟩
      · split at heng
        · cases heng
        · rename_i o hiu
          obtain ⟨hos, hmono, hnone⟩ := ih _ o env0 stack0 hiu rfl
          split at heng
          · injection heng with h
            subst h
            exact ⟨hos, hmono, hnone⟩
          · cases heng
    | sInst s env0 rng stack0 =>
      injection hc with hc
      injection hc with hc1 hc2
      subst hc1; subst hc2
      rw [engine.eq_def] at heng
      simp only [] at heng
      split at heng
      · split at heng
        · split at heng
          · cases heng
          · cases heng
          · rename_i o hiu
            split at heng
            · cases heng
            · rename_i o2 hrec
              obtain ⟨hos, hmono, hnone⟩ := ih _ o env0 stack0 hiu rfl
              obtain ⟨hos2, hmono2, hnone2⟩ := ih _ o2 o.env o.stack hrec rfl
              injection heng with h
              subst h
              refine ⟨by simp [hos2, hos], fun k v hv => hmono2 k v (hmono k v hv), ?_⟩
              intro k hkin hkn
              exact hnone2 k (hos ▸ hkin) (hnone k hkin hkn)
        · split at heng
          · cases heng
          · rename_i o2 hrec
            obtain ⟨hos2, hmono2, hnone2⟩ := ih _ o2 env0 stack0 hrec rfl
            injection heng with h
            subst h
            exact ⟨hos2, hmono2, hnone2⟩
      · split at heng
        · cases heng
        · rename_i o2 hrec
          obtain ⟨hos2, hmono2, hnone2⟩ := ih _ o2 env0 stack0 hrec rfl
          injection heng with h
          subst h
          exact ⟨hos2, hmono2, hnone2⟩
      · injection heng with h
        subst h
        exact ⟨rfl, fun k v hv => hv, fun k _ hn => hn⟩
    | replaceC r env0 rng stack0 =>
      injection hc with hc
      injection hc with hc1 hc2
      subst hc1; subst hc2
      rw [engine.eq_def] at heng
      simp only [] at heng
      rcases hch : chooseL r.content rng with ⟨os, rng1⟩
      rw [hch] at heng
      simp only [] at heng
      by_cases hmg : 2 ≤ (genderMarkers (os.getD [])).length
      · rw [if_pos hmg] at heng; cases heng
      · rw [if_neg hmg] at heng
        cases h1 : engine g f (.sReinst (stripGender (os.getD [])) rng1) with
        | error e => rw [h1] at heng; cases heng
        | ok o1 =>
          rw [h1] at heng
          simp only [] at heng
          cases h2 : engine g f (.sInst o1.text env0 o1.rng stack0) with
          | error e => rw [h2] at heng; cases heng
          | ok o2 =>
            rw [h2] at heng
            simp only [] at heng
            obtain ⟨hs2, hm2, hn2⟩ := ih _ o2 env0 stack0 h2 rfl
            cases hdep : r.gender_dependency with
            | some key =>
              rw [hdep] at heng
              simp only [] at heng
              cases h3 : engine g f (.getGender key o2.env o2.rng o2.stack) with
              | error e => rw [h3] at heng; cases heng
              | ok o3 =>
                rw [h3] at heng
                simp only [] at heng
                obtain ⟨hs3, hm3, hn3⟩ := ih _ o3 o2.env o2.stack h3 rfl
                cases h4 : engine g f (.sDots o2.text o3.gender o3.env o3.rng o3.stack) with
                | error e => rw [h4] at heng; cases heng
                | ok o4 =>
                  rw [h4] at heng
                  simp only [] at heng
                  obtain ⟨hs4, hm4, hn4⟩ := ih _ o4 o3.env o3.stack h4 rfl
                  cases h5 : engine g f (.sSlash o4.text o3.gender o4.env o4.rng o4.stack) with
                  | error e => rw [h5] at heng; cases heng
                  | ok o5 =>
                    rw [h5] at heng
                    obtain ⟨hs5, hm5, hn5⟩ := ih _ o5 o4.env o4.stack h5 rfl
                    injection heng with h
                    subst h
                    refine ⟨by simp [hs5, hs4, hs3, hs2],
                      fun k v hv => hm5 k v (hm4 k v (hm3 k v (hm2 k v hv))), ?_⟩
                    intro k hkin hkn
                    refine hn5 k ?_ (hn4 k ?_ (hn3 k ?_ (hn2 k hkin hkn))) <;>
                      simp [hs4, hs3, hs2, hkin]
            | none =>
              rw [hdep] at heng
              simp only [] at heng
              cases h4 : engine g f (.sDots o2.text .neutral o2.env o2.rng o2.stack) with
              | error e => rw [h4] at heng; cases heng
              | ok o4 =>
                rw [h4] at heng
                simp only [] at heng
                obtain ⟨hs4, hm4, hn4⟩ := ih _ o4 o2.env o2.stack h4 rfl
                cases h5 : engine g f (.sSlash o4.text .neutral o4.env o4.rng o4.stack) with
                | error e => rw [h5] at heng; cases heng
                | ok o5 =>
                  rw [h5] at heng
                  obtain ⟨hs5, hm5, hn5⟩ := ih _ o5 o4.env o4.stack h5 rfl
                  injection heng with h
                  subst h
                  refine ⟨by simp [hs5, hs4, hs2],
                    fun k v hv => hm5 k v (hm4 k v (hm2 k v hv)), ?_⟩
                  intro k hkin hkn
                  refine hn5 k ?_ (hn4 k ?_ (hn2 k hkin hkn)) <;>
                    simp [hs4, hs2, hkin]
    | sDots s ga env0 rng stack0 =>
      injection hc with hc
      injection hc with hc1 hc2
      subst hc1; subst hc2
      rw [engine.eq_def] at heng
      simp only [] at heng
      split at heng
      · injection heng with h
        subst h
        exact ⟨rfl, fun k v hv => hv, fun k _ hn => hn⟩
      · split at heng
        · split at heng
          · -- '·' match
            rename_i r2 hd
            cases hov : (bracketW2 (dotsBC (List.dropWhile isW2 r2)).2).1 with
            | some k =>
              rw [hov] at heng
              simp only [] at heng
              cases h3 : engine g f (.getGender k env0 rng stack0) with
              | error e =>
                rw [h3] at heng
                cases e <;> cases heng
              | ok o3 =>
                rw [h3] at heng
                simp only [] at heng
                obtain ⟨hs3, hm3, hn3⟩ := ih _ o3 env0 stack0 h3 rfl
                cases hrec : engine g f
                    (.sDots (bracketW2 (dotsBC (List.dropWhile isW2 r2)).2).2 ga o3.env o3.rng o3.stack) with
                | error e => rw [hrec] at heng; cases heng
                | ok o2 =>
                  rw [hrec] at heng
                  obtain ⟨hs2, hm2, hn2⟩ := ih _ o2 o3.env o3.stack hrec rfl
                  injection heng with h
                  subst h
                  refine ⟨by simp [hs2, hs3], fun k v hv => hm2 k v (hm3 k v hv), ?_⟩
                  intro k hkin hkn
                  exact hn2 k (hs3 ▸ hkin) (hn3 k hkin hkn)
            | none =>
              rw [hov] at heng
              simp only [] at heng
              cases hrec : engine g f
                  (.sDots (bracketW2 (dotsBC (List.dropWhile isW2 r2)).2).2 ga env0 rng stack0) with
              | error e => rw [hrec] at heng; cases heng
              | ok o2 =>
                rw [hrec] at heng
                obtain ⟨hs2, hm2, hn2⟩ := ih _ o2 env0 stack0 hrec rfl
                injection heng with h
                subst h
                exact ⟨hs2, hm2, hn2⟩
          · -- no '·' after the run
            split at heng
            · cases heng
            · rename_i o2 hrec
              obtain ⟨hs2, hm2, hn2⟩ := ih _ o2 env0 stack0 hrec rfl
              injection heng with h
              subst h
              exact ⟨hs2, hm2, hn2⟩
        · -- head not in the class
          split at heng
          · cases heng
          · rename_i o2 hrec
            obtain ⟨hs2, hm2, hn2⟩ := ih _ o2 env0 stack0 hrec rfl
            injection heng with h
            subst h
            exact ⟨hs2, hm2, hn2⟩
    | sSlash s ga env0 rng stack0 =>
      injection hc with hc
      injection hc with hc1 hc2
      subst hc1; subst hc2
      rw [engine.eq_def] at heng
      simp only [] at heng
      split at heng
      · injection heng with h
        subst h
        exact ⟨rfl, fun k v hv => hv, fun k _ hn => hn⟩
      · split at heng
        · -- '/' match
          rename_i r2 hd
          cases hov : (bracketW (slashN (List.dropWhile isW2 r2)).2).1 with
          | some k =>
            rw [hov] at heng
            simp only [] at heng
            cases h3 : engine g f (.getGender k env0 rng stack0) with
            | error e =>
              rw [h3] at heng
              cases e <;> cases heng
            | ok o3 =>
              rw [h3] at heng
              simp only [] at heng
              obtain ⟨hs3, hm3, hn3⟩ := ih _ o3 env0 stack0 h3 rfl
              cases hrec : engine g f
                  (.sSlash (bracketW (slashN (List.dropWhile isW2 r2)).2).2 ga o3.env o3.rng o3.stack) with
              | error e => rw [hrec] at heng; cases heng
              | ok o2 =>
                rw [hrec] at heng
                obtain ⟨hs2, hm2, hn2⟩ := ih _ o2 o3.env o3.stack hrec rfl
                injection heng with h
                subst h
                refine ⟨by simp [hs2, hs3], fun k v hv => hm2 k v (hm3 k v hv), ?_⟩
                intro k hkin hkn
                exact hn2 k (hs3 ▸ hkin) (hn3 k hkin hkn)
          | none =>
            rw [hov] at heng
            simp only [] at heng
            cases hrec : engine g f
                (.sSlash (bracketW (slashN (List.dropWhile isW2 r2)).2).2 ga env0 rng stack0) with
            | error e => rw [hrec] at heng; cases heng
            | ok o2 =>
              rw [hrec] at heng
              obtain ⟨hs2, hm2, hn2⟩ := ih _ o2 env0 stack0 hrec rfl
              injection heng with h
              subst h
              exact ⟨hs2, hm2, hn2⟩
        · -- no slash: run empty or not
          split at heng
          · split at heng
            · cases heng
            · rename_i o2 hrec
              obtain ⟨hs2, hm2, hn2⟩ := ih _ o2 env0 stack0 hrec rfl
              injection heng with h
              subst h
              exact ⟨hs2, hm2, hn2⟩
          · split at heng
            · cases heng
            · rename_i o2 hrec
              obtain ⟨hs2, hm2, hn2⟩ := ih _ o2 env0 stack0 hrec rfl
              injection heng with h
              subst h
              exact ⟨hs2, hm2, hn2⟩

/-- Claim C7: within one top-level expansion, the resolution environment
never remaps a symbol.  Conjunct 1 (from the invariant above): every
binding present in the environment before an `instantiate_util` call is
still mapped to the same resolved value afterward — the first resolution
of a symbol is the one every later reference sees.  Conjunct 2: a
memoized hit returns exactly the stored text with only the
capitalization of the use-site spelling applied (and the environment,
random state and guard untouched).  Conjunct 3: a template referencing
`x` twice via `{x}` yields the same text twice.  Conjunct 4: `{{x}}`
occurrences may differ (two occurrences of a two-variant symbol draw
different variants in the same call). -/
theorem c7_memoization :
    (∀ (g : Generator) (fuel : Nat) (sym : Str) (env : EnvT) (rng : Rng)
      (stack : List Str) (t : Str) (env2 : EnvT) (rng2 : Rng) (stack2 : List Str),
      instantiate_util g fuel sym env rng stack = .ok (t, env2, rng2, stack2) →
      ∀ k v, lookupA env k = some v → lookupA env2 k = some v) ∧
    (∀ (g : Generator) (fuel : Nat) (sym : Str) (env : EnvT) (rng : Rng)
      (stack : List Str) (r : Replaced),
      lookupA env (strLower sym) = some r →
      instantiate_util g (fuel + 1) sym env rng stack =
        (match capitalize sym r.content with
         | some t => .ok (t, env, rng, stack)
         | none => .error .panicked)) ∧
    instantiate gC7 200 (str r"main") ⟨0⟩ = .ok (str r"hi hi") ∧
    instantiate gC7r 200 (str r"main") ⟨0⟩ = .ok (str r"ba") := by
  refine ⟨?_, ?_, by decide, by decide⟩
  · intro g fuel sym env rng stack t env2 rng2 stack2 hiu k v hv
    rw [instantiate_util] at hiu
    cases heng : engine g fuel (.instUtil sym env rng stack) with
    | error e => rw [heng] at hiu; cases hiu
    | ok o =>
      rw [heng] at hiu
      injection hiu with hiu
      obtain ⟨_, hmono, _⟩ := engine_env_mono g fuel _ o env stack heng rfl
      have he : env2 = o.env := by
        have := congrArg (fun p => p.2.1) hiu
        simpa using this.symm
      rw [he]
      exact hmono k v hv
  · intro g fuel sym env rng stack r hmem
    rw [instantiate_util, engine, hmem]
    cases hcap : capitalize sym r.content <;> simp [hcap]

/-- Witness for `c7_memoization`: resolving `x` on top of an environment
that already binds `z` leaves the binding of `z` untouched in the
resulting environment. -/
theorem c7_memoization_witness :
    lookupA [(str r"x", ⟨str r"hi", Gender.neutral⟩),
      (str r"z", ⟨str r"v", Gender.neutral⟩)] (str r"z") =
      some ⟨str r"v", Gender.neutral⟩ :=
  c7_memoization.1 gC7 50 (str r"x") [(str r"z", ⟨str r"v", Gender.neutral⟩)] ⟨0⟩ []
    (str r"hi")
    [(str r"x", ⟨str r"hi", Gender.neutral⟩), (str r"z", ⟨str r"v", Gender.neutral⟩)]
    ⟨12345⟩ [] (by decide) (str r"z") ⟨str r"v", Gender.neutral⟩ (by decide)
